import Mathlib

/-!
Verification of the FPL hybrid Graph-RAG agent (baseline intent pipeline,
embedding re-ranker, context merger and orchestrator).

The Python sources are shallowly embedded: Python values are modelled by
`PyVal`, Python dicts by insertion-ordered association lists with
assign-in-place update (`dictSet`), raised exceptions by `Except String`,
and the external collaborators (Neo4j driver, LLM endpoints, vector store)
by explicit oracle arguments.  Every function keeps the name it has in the
source file it is translated from:

* `fpl_agent_baseline.py`: `clean_json_string`, `normalize_params`,
  `parse_user_intent`, `execute_query`, `CYPHER_TEMPLATES`;
* `fpl_agent_embeddings.py`: `rerank_by_player_name` (with a model of
  `difflib.SequenceMatcher.ratio`);
* `fpl_agent_hybrid.py`: `format_context`, `process_query`;
* `lim_utils.py`: `LLM_CONFIGS`, `get_llm_instance`.

Definitions whose doc comment starts with `Modelled from the spec:` follow
the specification's words instead (they exist only to be compared with the
code's behaviour).
-/

set_option maxRecDepth 100000

namespace FPL

/-- Python runtime values, as far as this repository's pure code needs them.
Floats are carried as exact rationals (no claim below depends on IEEE
rounding; floats are never compared or rendered by the verified paths);
`nan`/`inf` cover the JSON extensions Python's `json.loads` accepts. -/
inductive PyVal where
  | none
  | bool (b : Bool)
  | int (n : Int)
  | float (q : ℚ)
  | str (s : String)
  | list (l : List PyVal)
  | dict (d : List (String × PyVal))
  | nan
  | inf (neg : Bool)

/-- Python dicts are insertion ordered; an association list models one. -/
abbrev PyDict := List (String × PyVal)

/-- `d[k]` as an option (first binding wins; Python dicts have unique keys). -/
def dictGet : PyDict → String → Option PyVal
  | [], _ => Option.none
  | (k', v) :: d, k => if k' == k then Option.some v else dictGet d k

/-- Python `d.get(k, dflt)`. -/
def dictGetD (d : PyDict) (k : String) (dflt : PyVal) : PyVal :=
  (dictGet d k).getD dflt

/-- Python `k in d`. -/
def dictContains : PyDict → String → Bool
  | [], _ => false
  | (k', _) :: d, k => k' == k || dictContains d k

/-- Python `d[k] = v`: update the (unique) existing binding in place, append
a new binding otherwise. -/
def dictSet : PyDict → String → PyVal → PyDict
  | [], k, v => [(k, v)]
  | (k', v') :: d, k, v =>
    if k' == k then (k, v) :: d else (k', v') :: dictSet d k v

/-- Python truthiness (`bool(x)`) for the modelled values. -/
def pyTruthy : PyVal → Bool
  | .none => false
  | .bool b => b
  | .int n => n != 0
  | .float q => q != 0
  | .str s => s != ""
  | .list l => !l.isEmpty
  | .dict d => !d.isEmpty
  | .nan => true
  | .inf _ => true

mutual

/-- Python `repr(x)`.  Strings are single quoted without further escaping and
floats are printed as rationals: both are simplifications, and no verified
path below ever renders a float or re-parses a repr. -/
def pyRepr : PyVal → String
  | .none => "None"
  | .bool b => if b then "True" else "False"
  | .int n => toString n
  | .float q => toString q
  | .str s => "'" ++ s ++ "'"
  | .list l => "[" ++ String.intercalate ", " (pyReprList l) ++ "]"
  | .dict d => "\x7b" ++ String.intercalate ", " (pyReprPairs d) ++ "\x7d"
  | .nan => "nan"
  | .inf neg => if neg then "-inf" else "inf"

/-- `repr` of each element of a list. -/
def pyReprList : List PyVal → List String
  | [] => []
  | v :: vs => pyRepr v :: pyReprList vs

/-- `repr` of each `key: value` pair of a dict. -/
def pyReprPairs : List (String × PyVal) → List String
  | [] => []
  | (k, v) :: ps => ("'" ++ k ++ "': " ++ pyRepr v) :: pyReprPairs ps

end

/-- Python `str(x)` (also what an f-string interpolation renders). -/
def pyStrOf : PyVal → String
  | .str s => s
  | v => pyRepr v

/-- Characters Python's `str.strip()` removes (the ASCII whitespace set;
no string this code strips ever holds non-ASCII whitespace). -/
def isPyWs (c : Char) : Bool :=
  c == ' ' || c == '\t' || c == '\n' || c == '\x0d' || c == '\x0c' || c == '\x0b'

/-- Python `s.strip()`. -/
def pyStrip (s : String) : String :=
  ⟨(s.toList.dropWhile isPyWs).reverse.dropWhile isPyWs |>.reverse⟩

/-- Integer literal text: optional sign, then one or more digits. -/
def digitsToInt : List Char → Option Int
  | [] => Option.none
  | cs =>
    let core : List Char → Option Int := fun ds =>
      if ds ≠ [] ∧ ds.all Char.isDigit then
        Option.some (ds.foldl (fun acc c => acc * 10 + (c.toNat - 48)) (0 : Int))
      else Option.none
    match cs with
    | '-' :: rest => (core rest).map (fun n => -n)
    | '+' :: rest => core rest
    | _ => core cs

/-- Python `int(x)` as an option (`Option.none` models the raised error that the
callers catch).  `int` of a string strips whitespace and reads a signed run of
digits; the underscore-separator extension of Python's literal syntax is not
modelled (never exercised here).  `int` of a float truncates toward zero. -/
def pyToInt : PyVal → Option Int
  | .int n => Option.some n
  | .bool b => Option.some (if b then 1 else 0)
  | .float q => Option.some (q.num.tdiv q.den)
  | .str s => digitsToInt (pyStrip s).toList
  | _ => Option.none

/-- Python `s.lower()` (ASCII case mapping; nothing lowered by this code
holds non-ASCII letters).  List-based so that it reduces inside the
kernel, unlike `String.toLower`. -/
def pyLower (s : String) : String :=
  ⟨s.toList.map Char.toLower⟩

/-- Whether `pre` is a prefix of `l`. -/
def listStartsWith : List Char → List Char → Bool
  | [], _ => true
  | _ :: _, [] => false
  | p :: ps, c :: cs => p == c && listStartsWith ps cs

/-- Whether `needle` occurs inside `hay` (Python `needle in hay` on strings). -/
def listContainsSub (hay needle : List Char) : Bool :=
  match hay with
  | [] => needle.isEmpty
  | _ :: rest => listStartsWith needle hay || listContainsSub rest needle

/-- Python `needle in hay` for strings. -/
def containsSub (hay needle : String) : Bool :=
  listContainsSub hay.toList needle.toList

/-- Replace every (non-overlapping, left-to-right) occurrence of `old` in
the character list by `new`; `old` is nonempty at every use.  Structural
recursion on `fuel` keeps the definition kernel-reducible; every step
consumes at least one character, so any `fuel` above the list's length is
enough and `pyReplace` supplies it. -/
def replaceList (old new : List Char) : Nat → List Char → List Char
  | 0, cs => cs
  | _ + 1, [] => []
  | fuel + 1, c :: rest =>
    if listStartsWith old (c :: rest) then
      new ++ replaceList old new fuel (rest.drop (old.length - 1))
    else c :: replaceList old new fuel rest

/-- Python `s.replace(old, new)` for a nonempty `old` (list-based so that it
reduces inside the kernel, unlike `String.replace`; the `old = ""` case is
never exercised and returns `s`). -/
def pyReplace (s old new : String) : String :=
  if old = "" then s
  else ⟨replaceList old.toList new.toList (s.toList.length + 1) s.toList⟩

/-- Split on a single-character separator, as Python `s.split(sep)` /
`s.splitOn` for a one-character `sep` (kernel-reducible). -/
def splitOnChar (sep : Char) (s : String) : List String :=
  (s.toList.foldr
    (fun ch acc =>
      match acc with
      | cur :: rest => if ch == sep then [] :: cur :: rest else (ch :: cur) :: rest
      | [] => [[ch]])
    [[]]).map (fun l => (⟨l⟩ : String))

/-- Lookup with default in a string-to-string association list
(Python `table.get(k, dflt)`; iteration order is declaration order). -/
def alistGetD (table : List (String × String)) (k dflt : String) : String :=
  ((table.find? (fun p => p.1 == k)).map (fun p => p.2)).getD dflt

/-- Python `v == "lit"` for a string literal `lit` (cross-type comparison with
a string is `False` in Python, never an error). -/
def pyEqStrLit (v : PyVal) (lit : String) : Bool :=
  match v with
  | .str s => s == lit
  | _ => false

/-! ## The JSON layer

`fpl_agent_baseline.parse_user_intent` feeds the classifier model's raw
output through `clean_json_string` and `json.loads`.  `json_loads` below
models CPython's strict decoder: the exact whitespace set, string escapes,
control-character rejection, the `NaN`/`Infinity` extensions, trailing-data
rejection, and last-binding-wins duplicate object keys. -/

/-- Whitespace skipped by `json.loads` between tokens. -/
def isJsonWs (c : Char) : Bool :=
  c == ' ' || c == '\t' || c == '\n' || c == '\x0d'

/-- Drop leading JSON whitespace. -/
def skipJsonWs (cs : List Char) : List Char :=
  cs.dropWhile isJsonWs

/-- Lex the digits of a JSON number part. -/
def takeDigits (cs : List Char) : List Char × List Char :=
  (cs.takeWhile Char.isDigit, cs.dropWhile Char.isDigit)

/-- Natural value of a digit run. -/
def digitsVal (ds : List Char) : Nat :=
  ds.foldl (fun acc c => acc * 10 + (c.toNat - 48)) 0

/-- Parse a JSON number at the head of `cs` (grammar
`-?(0|[1-9][0-9]*)(\.[0-9]+)?([eE][+-]?[0-9]+)?`); integers without a
fraction or exponent become `PyVal.int`, the rest exact `PyVal.float`s. -/
def parseJsonNumber (cs : List Char) : Option (PyVal × List Char) := do
  let (neg, cs) := match cs with
    | '-' :: rest => (true, rest)
    | _ => (false, cs)
  let (ipart, cs) ← match cs with
    | '0' :: rest => Option.some (([('0' : Char)] : List Char), rest)
    | c :: _ =>
      if c.isDigit then Option.some (takeDigits cs)
      else Option.none
    | [] => Option.none
  let (frac, cs) ← match cs with
    | '.' :: rest =>
      let (ds, rest') := takeDigits rest
      if ds.isEmpty then Option.none else Option.some (ds, rest')
    | _ => Option.some (([] : List Char), cs)
  let (expSign, expDigits, cs) ← match cs with
    | 'e' :: rest | 'E' :: rest =>
      let (sgn, rest) := match rest with
        | '-' :: r => (true, r)
        | '+' :: r => (false, r)
        | _ => (false, rest)
      let (ds, rest') := takeDigits rest
      if ds.isEmpty then Option.none else Option.some (sgn, ds, rest')
    | _ => Option.some (false, ([] : List Char), cs)
  let iv : Int := digitsVal ipart
  if frac.isEmpty && expDigits.isEmpty then
    return (.int (if neg then -iv else iv), cs)
  let mantissa : ℚ := (iv : ℚ) + (digitsVal frac : ℚ) / ((10 : ℚ) ^ frac.length)
  let e : Int := if expSign then -(digitsVal expDigits : Int) else (digitsVal expDigits : Int)
  let value : ℚ := mantissa * (10 : ℚ) ^ e
  return (.float (if neg then -value else value), cs)

/-- Parse the body of a JSON string literal (after the opening quote) up to
its closing quote, decoding escapes; a raw control character is rejected as
CPython's strict decoder does.  Surrogate pairing of `\u` escapes is not
recombined and a lone surrogate collapses to `Char.ofNat`'s default (no
input here uses non-BMP characters or surrogates). -/
def parseJsonString : List Char → List Char → Option (String × List Char)
  | acc, '"' :: rest => Option.some (⟨acc.reverse⟩, rest)
  | acc, '\\' :: esc :: rest =>
    match esc, rest with
    | '"', r => parseJsonString ('"' :: acc) r
    | '\\', r => parseJsonString ('\\' :: acc) r
    | '/', r => parseJsonString ('/' :: acc) r
    | 'b', r => parseJsonString ('\x08' :: acc) r
    | 'f', r => parseJsonString ('\x0c' :: acc) r
    | 'n', r => parseJsonString ('\n' :: acc) r
    | 'r', r => parseJsonString ('\x0d' :: acc) r
    | 't', r => parseJsonString ('\t' :: acc) r
    | 'u', h1 :: h2 :: h3 :: h4 :: r =>
      let hexVal : Char → Option Nat := fun c =>
        if c.isDigit then Option.some (c.toNat - 48)
        else if 'a' ≤ c ∧ c ≤ 'f' then Option.some (c.toNat - 87)
        else if 'A' ≤ c ∧ c ≤ 'F' then Option.some (c.toNat - 55)
        else Option.none
      match hexVal h1, hexVal h2, hexVal h3, hexVal h4 with
      | Option.some a, Option.some b, Option.some c, Option.some d =>
        let n := ((a * 16 + b) * 16 + c) * 16 + d
        parseJsonString (Char.ofNat n :: acc) r
      | _, _, _, _ => Option.none
    | _, _ => Option.none
  | acc, c :: rest =>
    if c.toNat < 32 then Option.none else parseJsonString (c :: acc) rest
  | _, [] => Option.none

mutual

/-- Parse one JSON value at the head of `cs` (leading whitespace already
skipped).  `fuel` only forces termination; `json_loads` supplies enough of
it for any input. -/
def parseJsonValue : Nat → List Char → Option (PyVal × List Char)
  | 0, _ => Option.none
  | fuel + 1, cs =>
    match cs with
    | '\x7b' :: rest =>
      match skipJsonWs rest with
      | '\x7d' :: rest' => Option.some (.dict [], rest')
      | rest' => parseJsonMembers fuel rest' []
    | '[' :: rest =>
      match skipJsonWs rest with
      | ']' :: rest' => Option.some (.list [], rest')
      | rest' => parseJsonElements fuel rest' []
    | '"' :: rest => (parseJsonString [] rest).map (fun p => (.str p.1, p.2))
    | 't' :: 'r' :: 'u' :: 'e' :: rest => Option.some (.bool true, rest)
    | 'f' :: 'a' :: 'l' :: 's' :: 'e' :: rest => Option.some (.bool false, rest)
    | 'n' :: 'u' :: 'l' :: 'l' :: rest => Option.some (.none, rest)
    | 'N' :: 'a' :: 'N' :: rest => Option.some (.nan, rest)
    | 'I' :: 'n' :: 'f' :: 'i' :: 'n' :: 'i' :: 't' :: 'y' :: rest =>
      Option.some (.inf false, rest)
    | '-' :: 'I' :: 'n' :: 'f' :: 'i' :: 'n' :: 'i' :: 't' :: 'y' :: rest =>
      Option.some (.inf true, rest)
    | _ => parseJsonNumber cs

/-- Parse the members of a JSON object from the first key on; a later
binding of a key overwrites an earlier one, as CPython's object hook does. -/
def parseJsonMembers (fuel : Nat) (cs : List Char) (acc : PyDict) :
    Option (PyVal × List Char) :=
  match fuel with
  | 0 => Option.none
  | fuel + 1 =>
    match cs with
    | '"' :: rest =>
      match parseJsonString [] rest with
      | Option.some (key, rest') =>
        match skipJsonWs rest' with
        | ':' :: rest'' =>
          match parseJsonValue fuel (skipJsonWs rest'') with
          | Option.some (v, rest''') =>
            let acc' := dictSet acc key v
            match skipJsonWs rest''' with
            | ',' :: tail => parseJsonMembers fuel (skipJsonWs tail) acc'
            | '\x7d' :: tail => Option.some (.dict acc', tail)
            | _ => Option.none
          | Option.none => Option.none
        | _ => Option.none
      | Option.none => Option.none
    | _ => Option.none

/-- Parse the elements of a JSON array from the first element on. -/
def parseJsonElements (fuel : Nat) (cs : List Char) (acc : List PyVal) :
    Option (PyVal × List Char) :=
  match fuel with
  | 0 => Option.none
  | fuel + 1 =>
    match parseJsonValue fuel cs with
    | Option.some (v, rest) =>
      match skipJsonWs rest with
      | ',' :: tail => parseJsonElements fuel (skipJsonWs tail) (acc ++ [v])
      | ']' :: tail => Option.some (.list (acc ++ [v]), tail)
      | _ => Option.none
    | Option.none => Option.none

end

/-- Python `json.loads`: parse one document and reject trailing data.
`Option.none` models the raised `JSONDecodeError`. -/
def json_loads (s : String) : Option PyVal :=
  match parseJsonValue (s.length + 1) (skipJsonWs s.toList) with
  | Option.some (v, rest) =>
    if (skipJsonWs rest).isEmpty then Option.some v else Option.none
  | Option.none => Option.none

/-- The JSON encoder's rendering of one string. -/
def jsonDumpsStr (s : String) : String :=
  "\"" ++ String.join (s.toList.map (fun c =>
    if c == '"' then "\\\""
    else if c == '\\' then "\\\\"
    else if c == '\n' then "\\n"
    else if c == '\t' then "\\t"
    else if c == '\x0d' then "\\r"
    else String.singleton c)) ++ "\""

mutual

/-- Python `json.dumps` of a value with the default separators
`(", ", ": ")` and ASCII-only inputs (the escapes the default encoder
emits for the characters these records can hold). -/
def jsonDumps : PyVal → String
  | .none => "null"
  | .bool b => if b then "true" else "false"
  | .int n => toString n
  | .float q => toString q
  | .str s => jsonDumpsStr s
  | .list l => "[" ++ String.intercalate ", " (jsonDumpsList l) ++ "]"
  | .dict d => "\x7b" ++ String.intercalate ", " (jsonDumpsPairs d) ++ "\x7d"
  | .nan => "NaN"
  | .inf neg => if neg then "-Infinity" else "Infinity"

/-- `json.dumps` of each list element. -/
def jsonDumpsList : List PyVal → List String
  | [] => []
  | v :: vs => jsonDumps v :: jsonDumpsList vs

/-- `json.dumps` of each object member. -/
def jsonDumpsPairs : List (String × PyVal) → List String
  | [] => []
  | (k, v) :: ps => (jsonDumpsStr k ++ ": " ++ jsonDumps v) :: jsonDumpsPairs ps

end

/-! ## `fpl_agent_baseline.py` -/

/-- Characters the pattern `\s` matches in the inputs at hand (ASCII; the
classifier outputs cleaned here are ASCII). -/
def isReWs (c : Char) : Bool :=
  c == ' ' || c == '\t' || c == '\n' || c == '\x0d' || c == '\x0c' || c == '\x0b'

/-- The substitution `re.sub(r',\s*([\]}])', r'\1', s)` on the character
list: scan left to right, and where a comma is followed by optional
whitespace and a closing bracket, drop the comma and the whitespace and
continue at the bracket.  (`re.sub` emits the bracket and continues after
the match; since no match can begin at a closing bracket, resuming at the
bracket — which the next step then emits verbatim — produces the same
string, and matches stay non-overlapping.)  Structural recursion on `fuel`
keeps the definition kernel-reducible; every step consumes at least one
character, so the caller's `length + 1` is always enough fuel. -/
def subTrailingCommas : Nat → List Char → List Char
  | 0, cs => cs
  | _ + 1, [] => []
  | fuel + 1, ',' :: rest =>
    match rest.dropWhile isReWs with
    | b :: _ =>
      if b == ']' || b == '\x7d' then subTrailingCommas fuel (rest.dropWhile isReWs)
      else ',' :: subTrailingCommas fuel rest
    | [] => ',' :: subTrailingCommas fuel rest
  | fuel + 1, c :: rest => c :: subTrailingCommas fuel rest

/-- Source: `fpl_agent_baseline.clean_json_string`.  Remove the markdown
code-fence markers, strip, then drop trailing commas before closing
brackets. -/
def clean_json_string (json_str : String) : String :=
  let json_str := pyStrip (pyReplace (pyReplace json_str "```json" "") "```" "")
  ⟨subTrailingCommas (json_str.toList.length + 1) json_str.toList⟩

/-- Source: `fpl_agent_baseline.CYPHER_TEMPLATES` (the registry mapping
each intent name to its Cypher query string, in declaration order). -/
def CYPHER_TEMPLATES : List (String × String) := [
  ("player_summary", "
        MATCH (p:Player)-[r:PLAYED_IN]->(f:Fixture \x7bseason: $season\x7d)
        WHERE toLower(p.player_name) CONTAINS toLower($player_name)
        RETURN p.player_name AS Player,
               sum(r.total_points) AS TotalPoints,
               sum(r.goals_scored) AS Goals,
               sum(r.assists) AS Assists,
               sum(r.minutes) AS Minutes
    "),
  ("top_players_by_position", "
        MATCH (p:Player)-[:PLAYS_AS]->(pos:Position)
        WHERE toLower(pos.name) = toLower($position) OR toLower(pos.name) = toLower($position_mapped)
        MATCH (p)-[r:PLAYED_IN]->(f:Fixture \x7bseason: $season\x7d)
        WITH p, sum(coalesce(r.total_points, 0)) AS TotalPoints
        ORDER BY TotalPoints DESC
        LIMIT toInteger($limit)
        RETURN p.player_name AS Player, TotalPoints
    "),
  ("player_vs_team", "
        MATCH (p:Player)-[r:PLAYED_IN]->(f:Fixture \x7bseason: $season\x7d)
        WHERE toLower(p.player_name) CONTAINS toLower($player_name)
        MATCH (f)-[:HAS_HOME_TEAM|HAS_AWAY_TEAM]->(t:Team)
        WHERE toLower(t.name) CONTAINS toLower($opponent)
        RETURN f.fixture_number AS GW,
               t.name AS Opponent,
               r.total_points AS Points,
               r.goals_scored AS Goals,
               r.assists AS Assists
    "),
  ("team_squad_by_position", "
        MATCH (t:Team) WHERE toLower(t.name) CONTAINS toLower($team)
        MATCH (p:Player)-[:PLAYS_AS]->(pos:Position)
        WHERE toLower(pos.name) = toLower($position) OR toLower(pos.name) = toLower($position_mapped)

        MATCH (p)-[:PLAYED_IN]->(f:Fixture \x7bseason: $season\x7d)
        MATCH (f)-[:HAS_HOME_TEAM|HAS_AWAY_TEAM]->(t)
        WITH p, count(f) as games
        WHERE games > 2
        RETURN DISTINCT p.player_name AS Player
        LIMIT toInteger($limit)
    "),
  ("compare_players", "
        MATCH (p:Player)-[r:PLAYED_IN]->(f:Fixture \x7bseason: $season\x7d)
        WHERE any(name IN $player_names WHERE toLower(p.player_name) CONTAINS toLower(name))
        RETURN p.player_name AS Player,
               sum(r.total_points) AS TotalPoints,
               sum(r.goals_scored) AS Goals,
               sum(r.assists) AS Assists
    "),
  ("team_performance_in_gw", "
        MATCH (s:Season \x7bseason_name: $season\x7d)-[:HAS_GW]->(g:Gameweek \x7bGW_number: toInteger($gw)\x7d)
        MATCH (g)-[:HAS_FIXTURE]->(f:Fixture)
        MATCH (t:Team)<-[:HAS_HOME_TEAM|HAS_AWAY_TEAM]-(f)
        WHERE toLower(t.name) CONTAINS toLower($team)
        MATCH (f)-[:HAS_HOME_TEAM|HAS_AWAY_TEAM]->(opponent:Team)
        WHERE opponent.name <> t.name

        MATCH (p:Player)-[r:PLAYED_IN]->(f)
        // Heuristic: Filter for players who play for T (stats > 0 helps filter bench)
        MATCH (p)-[:PLAYED_IN]->(f_all:Fixture \x7bseason: $season\x7d)
        MATCH (f_all)-[:HAS_HOME_TEAM|HAS_AWAY_TEAM]->(t)
        WITH g, t, opponent, p, r, count(f_all) as squad_games
        WHERE squad_games > 2

        WITH g, t, opponent, sum(r.goals_scored) as TeamGoals, sum(r.total_points) as TeamPoints, collect(p.player_name)[0..3] as KeyPlayers
        RETURN g.GW_number AS GW, opponent.name AS Opponent, TeamGoals, TeamPoints, KeyPlayers
    "),
  ("recommend_differentials", "
        MATCH (p:Player)-[:PLAYS_AS]->(pos:Position)
        WHERE toLower(pos.name) = toLower($position) OR toLower(pos.name) = toLower($position_mapped)
        MATCH (p)-[r:PLAYED_IN]->(f:Fixture \x7bseason: $season\x7d)
        WITH p, avg(r.influence) as AvgInf, sum(r.total_points) as Points
        WHERE Points > 30
        RETURN p.player_name AS Player, toInteger(AvgInf) as Influence, Points
        ORDER BY AvgInf DESC
        LIMIT toInteger($limit)
    "),
  ("best_captain_options", "
        MATCH (p:Player)-[r:PLAYED_IN]->(f:Fixture \x7bseason: $season\x7d)
        WITH p, r ORDER BY f.fixture_number DESC
        WITH p, collect(r.total_points)[0..3] as last_3_games
        WITH p, reduce(s = 0, x IN last_3_games | s + x) as form_points
        ORDER BY form_points DESC
        LIMIT 5
        RETURN p.player_name AS Player, form_points AS FormLast3GWs
    "),
  ("player_availability_check", "
        MATCH (p:Player)-[r:PLAYED_IN]->(f:Fixture \x7bseason: $season\x7d)
        WHERE toLower(p.player_name) CONTAINS toLower($player_name)
        WITH p, r, f ORDER BY f.fixture_number DESC LIMIT 3
        RETURN p.player_name, collect(r.minutes) as Last3Minutes
    "),
  ("highest_scoring_gw", "
        MATCH (p:Player)-[r:PLAYED_IN]->(f:Fixture \x7bseason: $season\x7d)
        WHERE toLower(p.player_name) CONTAINS toLower($player_name)
        MATCH (s:Season)-[:HAS_GW]->(g:Gameweek)-[:HAS_FIXTURE]->(f)
        RETURN g.GW_number AS GW, r.total_points AS Points
        ORDER BY Points DESC
        LIMIT 1
    ")]

/-- Look an intent up in the registry. -/
def templateGet (intent : String) : Option String :=
  (CYPHER_TEMPLATES.find? (fun p => p.1 == intent)).map (fun p => p.2)

/-- Source: `fpl_agent_baseline.normalize_params`, step 1 — the
`mappings` table of parameter-key aliases. -/
def KEY_MAPPINGS : List (String × String) :=
  [("player", "player_name"), ("name", "player_name"),
   ("home_team", "team"), ("away_team", "opponent")]

/-- Source: `fpl_agent_baseline.normalize_params`, step 3 — the
position synonym table (`pos_map`). -/
def POS_MAP : List (String × String) :=
  [("goalkeeper", "GK"), ("gk", "GK"),
   ("defender", "DEF"), ("def", "DEF"), ("defence", "DEF"),
   ("midfielder", "MID"), ("mid", "MID"), ("midfield", "MID"),
   ("forward", "FWD"), ("striker", "FWD"), ("fwd", "FWD"), ("attack", "FWD")]

/-- Source: `fpl_agent_baseline.normalize_params`, step 4 — the
team alias table (`team_map`), in declaration order. -/
def TEAM_MAP : List (String × String) :=
  [("manchester city", "Man City"), ("manchester united", "Man Utd"),
   ("man utd", "Man Utd"), ("nottingham", "Nott'm Forest"),
   ("tottenham", "Spurs"), ("wolves", "Wolves"),
   ("sheffield", "Sheffield Utd"), ("luton", "Luton"),
   ("newcastle", "Newcastle")]

/-- Step 1 of `normalize_params`: rebuild the dict with aliased keys
(`cleaned[mappings.get(k, k)] = v` over the items in insertion order). -/
def aliasKeys (items : PyDict) : PyDict :=
  items.foldl (fun acc kv => dictSet acc (alistGetD KEY_MAPPINGS kv.1 kv.1) kv.2) []

/-- Step 2a of `normalize_params`: coerce `limit` to an integer, falling
back to 5 on a conversion error or a missing key. -/
def coerceLimit (c : PyDict) : PyDict :=
  if dictContains c "limit" then
    match pyToInt (dictGetD c "limit" .none) with
    | Option.some n => dictSet c "limit" (.int n)
    | Option.none => dictSet c "limit" (.int 5)
  else dictSet c "limit" (.int 5)

/-- Step 2b of `normalize_params`: coerce `gw` to an integer if present,
leaving it untouched when the conversion fails (`except: pass`). -/
def coerceGw (c : PyDict) : PyDict :=
  if dictContains c "gw" then
    match pyToInt (dictGetD c "gw" .none) with
    | Option.some n => dictSet c "gw" (.int n)
    | Option.none => c
  else c

/-- Step 3 of `normalize_params`: when `position` is present, write the
synonym table's code (default `"MID"`) for `str(value).lower()` into
`position_mapped` only; otherwise default both keys to `"MID"`. -/
def mapPosition (c : PyDict) : PyDict :=
  if dictContains c "position" then
    dictSet c "position_mapped"
      (.str (alistGetD POS_MAP (pyLower (pyStrOf (dictGetD c "position" .none))) "MID"))
  else
    dictSet (dictSet c "position" (.str "MID")) "position_mapped" (.str "MID")

/-- Step 4 of `normalize_params` for one of the keys `team`/`opponent`:
lower-case the value (an `AttributeError` for a non-string, modelled as
`Except.error`), then rewrite it to the first alias whose long form occurs
in it. -/
def mapTeamKey (c : PyDict) (key : String) : Except String PyDict :=
  if dictContains c key then
    match dictGetD c key .none with
    | .str s =>
      match TEAM_MAP.find? (fun p => containsSub (pyLower s) p.1) with
      | Option.some p => .ok (dictSet c key (.str p.2))
      | Option.none => .ok c
    | _ => .error "AttributeError: object has no attribute lower"
  else .ok c

/-- Step 5 of `normalize_params`: default the season to `"2022-23"` when it
is absent or one of the relative terms. -/
def fixSeason (c : PyDict) : PyDict :=
  if !dictContains c "season"
      || pyEqStrLit (dictGetD c "season" .none) "current"
      || pyEqStrLit (dictGetD c "season" .none) "this season"
      || pyEqStrLit (dictGetD c "season" .none) "last season" then
    dictSet c "season" (.str "2022-23")
  else c

/-- The items `normalize_params` iterates: a falsy argument is replaced by
the empty dict (`if not params: params = \x7b\x7d`), and `.items()` raises on a
truthy non-dict. -/
def itemsOf (params : PyVal) : Except String PyDict :=
  if !pyTruthy params then Except.ok []
  else match params with
    | .dict d => Except.ok d
    | _ => Except.error "AttributeError: object has no attribute items"

/-- Source: `fpl_agent_baseline.normalize_params`: the five normalization
steps in source order over the argument's items.  An `Except.error` result
models an uncaught Python exception. -/
def normalize_params (params : PyVal) : Except String PyDict :=
  match itemsOf params with
  | .error e => .error e
  | .ok items =>
    let c := aliasKeys items
    let c := coerceGw (coerceLimit c)
    let c := mapPosition c
    match mapTeamKey c "team" with
    | .error e => .error e
    | .ok c =>
      match mapTeamKey c "opponent" with
      | .error e => .error e
      | .ok c => .ok (fixSeason c)

/-- The sentinel `parse_user_intent` returns when the model's output cannot
be parsed. -/
def errorIntent : PyVal :=
  .dict [("intent", .str "error"), ("parameters", .dict [])]

/-- Source: `fpl_agent_baseline.parse_user_intent`, from the point where the
chain has produced the model's raw response string: clean it, `json.loads`
it, and degrade any parse failure to the `"error"` sentinel. -/
def parse_user_intent (raw_response : String) : PyVal :=
  match json_loads (clean_json_string raw_response) with
  | Option.some v => v
  | Option.none => errorIntent

/-- One row returned by the graph store (`record.data()`: an ordered mapping
of named fields). -/
abbrev StructuredRecord := List (String × PyVal)

/-- Source: `fpl_agent_baseline.execute_query`.  `db` stands for the Neo4j
driver boundary (`driver.execute_query(template, params).records`, with
`Except.error` for a store-level exception, which the function's `try`
converts to an error string).  Everything before the `try` can raise: a
non-dict `intent_data`, a truthy non-string intent (`.strip()`), a
`normalize_params` failure, and a falsy unhashable intent (`[]`/`\x7b\x7d`
at the `in CYPHER_TEMPLATES` membership test) propagate as `Except.error`.
Every normal return of the Python function is a string, wrapped here as
`PyVal.str`. -/
def execute_query
    (db : String → PyDict → Except String (List StructuredRecord))
    (intent_data : PyVal) : Except String PyVal :=
  match intent_data with
  | .dict d =>
    let intent0 := dictGetD d "intent" .none
    let stripped : Except String PyVal :=
      if pyTruthy intent0 then
        match intent0 with
        | .str s => Except.ok (.str (pyLower (pyStrip s)))
        | _ => Except.error "AttributeError: object has no attribute strip"
      else Except.ok intent0
    match stripped with
    | .error e => .error e
    | .ok intentV =>
      match normalize_params (dictGetD d "parameters" .none) with
      | .error e => .error e
      | .ok params =>
        match intentV with
        | .list _ => .error "TypeError: unhashable type"
        | .dict _ => .error "TypeError: unhashable type"
        | _ =>
        match (match intentV with
               | .str s => templateGet s
               | _ => Option.none) with
        | Option.none =>
          .ok (.str ("Error: Intent '" ++ pyStrOf intentV ++ "' is not in the template library."))
        | Option.some tmpl =>
          match db tmpl params with
          | .error e => .ok (.str ("Query Execution Error: " ++ e))
          | .ok [] =>
            .ok (.str "No data found. (Check if Season/Names are correct or if data exists for this year)")
          | .ok records =>
            .ok (.str (String.intercalate "\n" (records.map (fun r => jsonDumps (.dict r)))))
  | _ => .error "AttributeError: object has no attribute get"

/-! ## `fpl_agent_hybrid.py` and `lim_utils.py` -/

/-- A chunk handed to `format_context` by the vector channel: a dict such as
`\x7b"text": …, "metadata": …\x7d`. -/
abbrev SemChunk := PyDict

/-- The flattened `"k: v, …"` join of one structured record
(`", ".join(f"\x7bk\x7d: \x7bv\x7d" for k, v in record.items())`). -/
def recordStr (r : StructuredRecord) : String :=
  String.intercalate ", " (r.map (fun kv => kv.1 ++ ": " ++ pyStrOf kv.2))

/-- The `"- …"` line rendered for one semantic chunk
(`f"- \x7bres.get('text', '')\x7d"`). -/
def chunkLine (c : SemChunk) : String :=
  "- " ++ pyStrOf (dictGetD c "text" (.str ""))

/-- Source: `fpl_agent_hybrid.format_context`, as the `context_parts` list it
builds before the final join: a database-records section (header plus one
line per record, or a no-match header), a literal `"\n"` element, then a
semantic-search section (header plus one line per chunk, or a no-profiles
header). -/
def format_context_parts (cypher_results : List StructuredRecord)
    (vector_results : List SemChunk) : List String :=
  let parts : List String :=
    if !cypher_results.isEmpty then
      "### Database Records (High Confidence):"
        :: cypher_results.map (fun record => "- " ++ recordStr record)
    else ["### Database Records: No direct match found."]
  let parts := parts ++ ["\n"]
  if !vector_results.isEmpty then
    parts ++ ("### Semantic Search (Contextual):" :: vector_results.map chunkLine)
  else parts ++ ["### Semantic Search: No relevant profiles found."]

/-- Source: `fpl_agent_hybrid.format_context` — the joined context block. -/
def format_context (cypher_results : List StructuredRecord)
    (vector_results : List SemChunk) : String :=
  String.intercalate "\n" (format_context_parts cypher_results vector_results)

/-- A resolved model instance (`FreeHFChatLLM` or `ChatGoogleGenerativeAI`). -/
inductive LLMInstance where
  | hf (repo_id : String)
  | google (repo_id : String)
deriving DecidableEq

/-- Source: `lim_utils.LLM_CONFIGS` — key, provider type, repo id, in
declaration order. -/
def LLM_CONFIGS : List (String × String × String) :=
  [("gemma", "hf", "google/gemma-2-2b-it"),
   ("llama", "hf", "meta-llama/Llama-3.1-8B-Instruct"),
   ("gemini", "google", "gemini-2.5-pro"),
   ("gemini_flash", "google", "gemini-2.5-flash")]

/-- Source: `lim_utils.get_llm_instance`.  `googleAvailable` models whether
`langchain_google_genai` imported (`ChatGoogleGenerativeAI is not None`).
An unknown key raises `ValueError` (modelled as `Except.error`); a Google
key with the library missing returns `None`; otherwise an instance. -/
def get_llm_instance (googleAvailable : Bool) (llm_key : String) :
    Except String (Option LLMInstance) :=
  match LLM_CONFIGS.find? (fun p => p.1 == llm_key) with
  | Option.none => .error ("Unknown LLM key: " ++ llm_key)
  | Option.some (_, ty, repo_id) =>
    if ty == "google" then
      if googleAvailable then .ok (Option.some (.google repo_id))
      else .ok Option.none
    else .ok (Option.some (.hf repo_id))

/-- Source: `fpl_agent_hybrid.HYBRID_PROMPT_TEMPLATE`, rendered with
`.format(context_str=…, user_query=…)`. -/
def hybridPrompt (context_str user_query : String) : String :=
  "\n--- PERSONA ---\nYou are an expert FPL (Fantasy Premier League) Assistant. \nYour goal is to help users optimize their fantasy teams using data-driven insights.\n\n--- CONTEXT ---\nUse the following retrieved information to answer the user's question.\nThe information comes from two sources:\n1. Database Records (Exact stats from the graph database)\n2. Semantic Search (Textual descriptions of player profiles)\n\n"
    ++ context_str
    ++ "\n\n--- TASK ---\nAnswer the user's question: \"" ++ user_query
    ++ "\"\n1. Base your answer PRIMARILY on the \"Database Records\" if they exist, as they are most accurate.\n2. Use \"Semantic Search\" to add context or if specific stats are missing.\n3. If the information is not in the context, admit you don't know. Do not hallucinate stats.\n4. Keep the answer concise and helpful for an FPL manager.\n\nAnswer:\n"

/-- Source: `fpl_agent_hybrid.process_query`.  The effectful collaborators
are oracle arguments: `classifierRaw` is the raw classifier-model response
(`parse_user_intent` runs on it here exactly as the import does),
`run_cypher` and `vectorSearch` stand for the two retrieval boundaries
(both guarded by `try`/`except` in the source, so an `Except.error` result
degrades to an empty channel), `llmInvoke` for `llm.invoke` (already
normalized to the answer text; its failure becomes an error answer), and
`duration` for the rounded wall clock.  The returned `Except.error` models
an exception escaping `process_query` — the source wraps neither
`intent_data.get` nor `get_llm_instance` in a `try`. -/
def process_query
    (classifierRaw : String)
    (run_cypher : PyVal → PyVal → Except String (List StructuredRecord))
    (vectorSearch : String → String → Except String (List SemChunk))
    (llmInvoke : LLMInstance → String → Except String String)
    (duration : PyVal)
    (googleAvailable : Bool)
    (user_query llm_key emb_key : String)
    (use_cypher use_vector : Bool) :
    Except String PyDict := do
  let intent_data := parse_user_intent classifierRaw
  let dd : PyDict ← match intent_data with
    | .dict d => Except.ok d
    | _ => Except.error "AttributeError: object has no attribute get"
  let intent := dictGetD dd "intent" .none
  let params := dictGetD dd "parameters" .none
  let cypher_results : List StructuredRecord :=
    if use_cypher && pyTruthy intent && !pyEqStrLit intent "error" then
      match run_cypher intent params with
      | .ok rs => rs
      | .error _ => []
    else []
  let vector_results : List SemChunk :=
    if use_vector then
      match vectorSearch user_query emb_key with
      | .ok vs => vs
      | .error _ => []
    else []
  let logs : PyDict :=
    [("intent", intent), ("cypher_params", params),
     ("retrieved_cypher", .list (cypher_results.map (fun r => .dict r))),
     ("retrieved_vector", .list (vector_results.map (fun c => .dict c)))]
  let context_str := format_context cypher_results vector_results
  let llm ← get_llm_instance googleAvailable llm_key
  match llm with
  | Option.none =>
    return [("answer", .str "Error: Could not initialize LLM. Check API keys or Model Name."),
            ("logs", .dict logs),
            ("context_used", .str context_str)]
  | Option.some inst =>
    let final_prompt := hybridPrompt context_str user_query
    let answer := match llmInvoke inst final_prompt with
      | .ok a => a
      | .error e => "Error during LLM generation: " ++ e
    return [("answer", .str answer),
            ("context_used", .str context_str),
            ("logs", .dict logs),
            ("duration", duration),
            ("model_used", .str llm_key)]

/-! ## `fpl_agent_embeddings.py`

`rerank_by_player_name` sorts the retrieved documents by
`difflib.SequenceMatcher(a=question.lower(), b=name).ratio()`, descending.
The model below follows CPython's `difflib` in the regime these calls live
in: `isjunk=None`, and `b` (a player name) far below the 200-character
autojunk threshold, so the junk machinery is inert. -/

/-- Positions of `c` in `b`, ascending (difflib's `b2j` chains). -/
def b2jList (b : List Char) (c : Char) : List Nat :=
  (List.range b.length).filter (fun j => b.getD j ' ' == c)

/-- The dynamic-programming pass of `SequenceMatcher.find_longest_match`
over `a[alo:ahi]` and `b[blo:bhi]`: for each `i`, the run length ending at
each `j` extends the run ending at `(i-1, j-1)`, and only a strictly longer
run displaces the best, so the first longest block (smallest `i`, then
smallest `j`) wins, as in CPython. -/
def flmFold (a b : List Char) (alo ahi blo bhi : Nat) : Nat × Nat × Nat :=
  ((List.range (ahi - alo)).map (· + alo)).foldl
    (fun (st : (Nat → Nat) × (Nat × Nat × Nat)) i =>
      let j2len := st.1
      let js := (b2jList b (a.getD i ' ')).filter
        (fun j => decide (blo ≤ j) && decide (j < bhi))
      js.foldl
        (fun (st2 : (Nat → Nat) × (Nat × Nat × Nat)) j =>
          let k := (if j = 0 then 0 else j2len (j - 1)) + 1
          ((fun x => if x = j then k else st2.1 x),
           if k > st2.2.2.2 then (i + 1 - k, j + 1 - k, k) else st2.2))
        ((fun _ => 0), st.2))
    ((fun _ => 0), (alo, blo, 0))
  |>.2

/-- The left-extension loop of `find_longest_match` (with no junk, it only
fires when the best block can grow over equal characters to its left). -/
def extendLeftGo (a b : List Char) (alo blo : Nat) :
    Nat → Nat × Nat × Nat → Nat × Nat × Nat
  | 0, st => st
  | fuel + 1, (besti, bestj, bestsize) =>
    if besti > alo && bestj > blo &&
        (match a.get? (besti - 1), b.get? (bestj - 1) with
         | Option.some x, Option.some y => x == y
         | _, _ => false) then
      extendLeftGo a b alo blo fuel (besti - 1, bestj - 1, bestsize + 1)
    else (besti, bestj, bestsize)

/-- The right-extension loop of `find_longest_match`. -/
def extendRightGo (a b : List Char) (ahi bhi : Nat) :
    Nat → Nat × Nat × Nat → Nat × Nat × Nat
  | 0, st => st
  | fuel + 1, (besti, bestj, bestsize) =>
    if besti + bestsize < ahi && bestj + bestsize < bhi &&
        (match a.get? (besti + bestsize), b.get? (bestj + bestsize) with
         | Option.some x, Option.some y => x == y
         | _, _ => false) then
      extendRightGo a b ahi bhi fuel (besti, bestj, bestsize + 1)
    else (besti, bestj, bestsize)

/-- `SequenceMatcher.find_longest_match` on the slice `(alo, ahi, blo, bhi)`
(junk-free regime): the DP pass, then both extension loops. -/
def find_longest_match (a b : List Char) (alo ahi blo bhi : Nat) : Nat × Nat × Nat :=
  let st := flmFold a b alo ahi blo bhi
  let st := extendLeftGo a b alo blo st.1 st
  extendRightGo a b ahi bhi ahi st

/-- Total size of all matching blocks (`get_matching_blocks` recursion:
split at the longest match and recurse on both sides).  `fuel` only forces
termination; any value of at least `ahi - alo + 1` reproduces difflib. -/
def matchingTotal (a b : List Char) : Nat → Nat → Nat → Nat → Nat → Nat
  | 0, _, _, _, _ => 0
  | fuel + 1, alo, ahi, blo, bhi =>
    let r := find_longest_match a b alo ahi blo bhi
    if r.2.2 = 0 then 0
    else
      matchingTotal a b fuel alo r.1 blo r.2.1 + r.2.2 +
        matchingTotal a b fuel (r.1 + r.2.2) ahi (r.2.1 + r.2.2) bhi

/-- `difflib.SequenceMatcher(a=…, b=…).ratio()` as an exact rational:
`2*M / (len(a)+len(b))`, and 1 for two empty strings.  The float the
CPython call returns orders two ratios identically (the denominators here
are far below the precision where rounding could reorder or merge them). -/
def ratioQ (aStr bStr : String) : ℚ :=
  let a := aStr.toList
  let b := bStr.toList
  let total := a.length + b.length
  if total = 0 then 1
  else mkRat (2 * (matchingTotal a b (a.length + 1) 0 a.length 0 b.length)) total

/-- A document from the vector store: `page_content` plus string-valued
`metadata` (the index builder stores `\x7b"player_name": <string>\x7d`). -/
structure SemDoc where
  page_content : String
  metadata : List (String × String)
deriving DecidableEq

/-- The sort key of `rerank_by_player_name`: 0 for a missing or empty
`player_name`, else the `SequenceMatcher` ratio of the lower-cased question
against the (already lower-cased) name. -/
def docScore (question : String) (doc : SemDoc) : ℚ :=
  let name := pyLower (alistGetD doc.metadata "player_name" "")
  if name = "" then 0 else ratioQ (pyLower question) name

/-- Insert `x` into an already descending list: before the first strictly
smaller score, after every earlier element of equal score. -/
def insertDescBy {α : Type} (score : α → ℚ) (x : α) : List α → List α
  | [] => [x]
  | y :: ys => if score y ≤ score x then x :: y :: ys else y :: insertDescBy score x ys

/-- Stable descending insertion sort: the unique stable sort by descending
key, hence extensionally `sorted(l, key=score, reverse=True)`. -/
def sortDescBy {α : Type} (score : α → ℚ) : List α → List α
  | [] => []
  | x :: xs => insertDescBy score x (sortDescBy score xs)

/-- Source: `fpl_agent_embeddings.rerank_by_player_name`. -/
def rerank_by_player_name (question : String) (docs : List SemDoc) : List SemDoc :=
  sortDescBy (docScore question) docs

/-- Source: `fpl_agent_embeddings.semantic_search`, with the vector store
(`load_vector_store().similarity_search`) as an oracle: rerank the
similarity hits and project each document to its `text`/`metadata` dict. -/
def semantic_search (store : String → Nat → List SemDoc)
    (question : String) (k : Nat) : List SemChunk :=
  (rerank_by_player_name question (store question k)).map
    (fun doc =>
      [("text", PyVal.str doc.page_content),
       ("metadata", PyVal.dict (doc.metadata.map (fun p => (p.1, PyVal.str p.2))))])

/-! ## Definitions modelled from the spec (for comparison only) -/

/-- Modelled from the spec: the "last token" of an entity name, "to catch
surname-only mentions". -/
def lastToken (s : String) : String :=
  (splitOnChar ' ' s).getLastD s

/-- Modelled from the spec: a chunk matches when its entity name, or that
name's last token, occurs in the lower-cased question. -/
def specMatched (question : String) (d : SemDoc) : Bool :=
  let q := pyLower question
  let name := pyLower (alistGetD d.metadata "player_name" "")
  name != "" && (containsSub q name || containsSub q (lastToken name))

/-- Modelled from the spec: the claimed re-ranking — matched chunks moved to
the front, relative order preserved inside both partitions. -/
def specRerank (question : String) (docs : List SemDoc) : List SemDoc :=
  docs.filter (specMatched question) ++ docs.filter (fun d => !specMatched question d)

/-- Modelled from the spec: the Context Merger's entity key of a structured
record — probe the field names `Player`, `player_name`, `player` in that
order, first non-empty value wins, compared case-insensitively (lower-cased
here); the empty key marks "no identifiable entity". -/
def specRecordKey (r : StructuredRecord) : String :=
  ((["Player", "player_name", "player"].findSome? (fun field =>
      match dictGet r field with
      | Option.some v => if pyStrOf v ≠ "" then Option.some (pyLower (pyStrOf v)) else Option.none
      | Option.none => Option.none)).getD "")

/-- Modelled from the spec: a semantic chunk's entity key — "from its
metadata's player-identity field", lower-cased for the case-insensitive
grouping. -/
def specChunkKey (c : SemChunk) : String :=
  pyLower (pyStrOf (dictGetD
    (match dictGetD c "metadata" (.dict []) with
     | .dict m => m
     | _ => []) "player_name" (.str "")))

/-- Modelled from the spec: a key sequence is grouped when two equal keys
are never separated by a different key — what "records and chunks sharing a
key render inside one entity group" forces on the rendering order. -/
def keysGroupedB (keys : List String) : Bool :=
  (List.range keys.length).all fun i =>
    (List.range keys.length).all fun j =>
      (List.range keys.length).all fun k =>
        !(decide (i < j) && decide (j < k) && (keys.getD i "" == keys.getD k ""))
          || (keys.getD i "" == keys.getD j "")

/-- Twelve concrete rows for exercising the retriever's (absent) result
cap. -/
def twelveRows : List StructuredRecord :=
  (List.range 12).map (fun i => [("GW", PyVal.int (i + 1))])

/-! ## Dict lemmas -/

/-- Key membership is definedness of lookup. -/
theorem dictContains_eq_isSome (d : PyDict) (k : String) :
    dictContains d k = (dictGet d k).isSome := by
  induction d with
  | nil => rfl
  | cons p d ih =>
    obtain ⟨k', v⟩ := p
    cases hpk : (k' == k) with
    | true => simp [dictContains, dictGet, hpk]
    | false => simp [dictContains, dictGet, hpk, ih]

/-- `d[k] = v` then looking up `k` yields `v`. -/
theorem dictGet_dictSet_self (d : PyDict) (k : String) (v : PyVal) :
    dictGet (dictSet d k v) k = Option.some v := by
  induction d with
  | nil => simp [dictSet, dictGet]
  | cons p d ih =>
    obtain ⟨k', v'⟩ := p
    cases hpk : (k' == k) with
    | true => simp [dictSet, dictGet, hpk]
    | false => simp [dictSet, dictGet, hpk, ih]

/-- `d[k] = v` leaves every other key's lookup unchanged. -/
theorem dictGet_dictSet_ne (d : PyDict) (k : String) (v : PyVal)
    (k' : String) (h : k' ≠ k) : dictGet (dictSet d k v) k' = dictGet d k' := by
  have hkk' : (k == k') = false := beq_eq_false_iff_ne.mpr (fun hh => h hh.symm)
  induction d with
  | nil => simp [dictSet, dictGet, hkk']
  | cons p d ih =>
    obtain ⟨k'', v''⟩ := p
    cases hpk : (k'' == k) with
    | true =>
      have hk'' : k'' = k := eq_of_beq hpk
      simp [dictSet, dictGet, hpk, hkk', hk'']
    | false => simp [dictSet, dictGet, hpk, ih]

/-! ## Step lemmas for `normalize_params` -/

/-- After the limit step, `limit` is bound to an integer. -/
theorem coerceLimit_limit (c : PyDict) :
    ∃ n : Int, dictGet (coerceLimit c) "limit" = Option.some (.int n) := by
  unfold coerceLimit
  split
  · split
    next n _ => exact ⟨n, dictGet_dictSet_self ..⟩
    next _ => exact ⟨5, dictGet_dictSet_self ..⟩
  · exact ⟨5, dictGet_dictSet_self ..⟩

/-- The limit step touches no other key. -/
theorem coerceLimit_ne (c : PyDict) (k : String) (h : k ≠ "limit") :
    dictGet (coerceLimit c) k = dictGet c k := by
  unfold coerceLimit
  split
  · split <;> exact dictGet_dictSet_ne _ _ _ _ h
  · exact dictGet_dictSet_ne _ _ _ _ h

/-- The gameweek step touches no other key. -/
theorem coerceGw_ne (c : PyDict) (k : String) (h : k ≠ "gw") :
    dictGet (coerceGw c) k = dictGet c k := by
  unfold coerceGw
  split
  · split
    · exact dictGet_dictSet_ne _ _ _ _ h
    · rfl
  · rfl

/-- The position step touches only `position` and `position_mapped`. -/
theorem mapPosition_ne (c : PyDict) (k : String)
    (h1 : k ≠ "position") (h2 : k ≠ "position_mapped") :
    dictGet (mapPosition c) k = dictGet c k := by
  unfold mapPosition
  split
  · exact dictGet_dictSet_ne _ _ _ _ h2
  · rw [dictGet_dictSet_ne _ _ _ _ h2, dictGet_dictSet_ne _ _ _ _ h1]

/-- With `position` bound to `v`, the position step leaves `position`
untouched and writes the canonicalized code only into `position_mapped`. -/
theorem mapPosition_sets (c : PyDict) (v : PyVal)
    (h : dictGet c "position" = Option.some v) :
    dictGet (mapPosition c) "position" = Option.some v
    ∧ dictGet (mapPosition c) "position_mapped"
        = Option.some (.str (alistGetD POS_MAP (pyLower (pyStrOf v)) "MID")) := by
  have hc : dictContains c "position" = true := by
    rw [dictContains_eq_isSome, h]; rfl
  unfold mapPosition
  rw [if_pos hc]
  refine ⟨?_, ?_⟩
  · rw [dictGet_dictSet_ne _ _ _ _ (by decide)]
    exact h
  · rw [dictGet_dictSet_self]
    unfold dictGetD
    rw [h]
    rfl

/-- Without `position`, the position step defaults both keys to `"MID"`. -/
theorem mapPosition_defaults (c : PyDict) (h : dictContains c "position" = false) :
    dictGet (mapPosition c) "position" = Option.some (.str "MID")
    ∧ dictGet (mapPosition c) "position_mapped" = Option.some (.str "MID") := by
  unfold mapPosition
  rw [if_neg (by simp [h])]
  refine ⟨?_, ?_⟩
  · rw [dictGet_dictSet_ne _ _ _ _ (by decide), dictGet_dictSet_self]
  · rw [dictGet_dictSet_self]

/-- After the position step both position keys are bound. -/
theorem mapPosition_contains (c : PyDict) :
    (dictGet (mapPosition c) "position").isSome = true
    ∧ (dictGet (mapPosition c) "position_mapped").isSome = true := by
  by_cases hc : dictContains c "position" = true
  · rw [dictContains_eq_isSome] at hc
    obtain ⟨v, hv⟩ := Option.isSome_iff_exists.mp hc
    obtain ⟨h1, h2⟩ := mapPosition_sets c v hv
    rw [h1, h2]
    exact ⟨rfl, rfl⟩
  · obtain ⟨h1, h2⟩ := mapPosition_defaults c (by simpa using hc)
    rw [h1, h2]
    exact ⟨rfl, rfl⟩

/-- A successful team-alias step touches no other key. -/
theorem mapTeamKey_ne (c c' : PyDict) (key k : String) (hk : k ≠ key)
    (h : mapTeamKey c key = .ok c') : dictGet c' k = dictGet c k := by
  unfold mapTeamKey at h
  split at h
  · split at h
    · split at h
      · cases h
        exact dictGet_dictSet_ne _ _ _ _ hk
      · cases h
        rfl
    · exact Except.noConfusion h
  · cases h
    rfl

/-- The team-alias step succeeds when the key is absent or bound to a
string. -/
theorem mapTeamKey_ok_of (c : PyDict) (key : String)
    (h : ∀ v, dictGet c key = Option.some v → ∃ s, v = .str s) :
    ∃ c', mapTeamKey c key = .ok c' := by
  by_cases hc : dictContains c key = true
  · have hc' := hc
    rw [dictContains_eq_isSome] at hc'
    obtain ⟨v, hv⟩ := Option.isSome_iff_exists.mp hc'
    obtain ⟨s, rfl⟩ := h v hv
    have hgetd : dictGetD c key .none = .str s := by unfold dictGetD; rw [hv]; rfl
    have hred : mapTeamKey c key =
        match TEAM_MAP.find? (fun p => containsSub (pyLower s) p.1) with
        | Option.some p => Except.ok (dictSet c key (.str p.2))
        | Option.none => Except.ok c := by
      unfold mapTeamKey
      rw [if_pos hc, hgetd]
    rw [hred]
    cases hfind : TEAM_MAP.find? (fun p => containsSub (pyLower s) p.1) with
    | some p => exact ⟨_, rfl⟩
    | none => exact ⟨c, rfl⟩
  · refine ⟨c, ?_⟩
    unfold mapTeamKey
    rw [if_neg hc]

/-- The season step binds `season`. -/
theorem fixSeason_season (c : PyDict) :
    (dictGet (fixSeason c) "season").isSome = true := by
  unfold fixSeason
  split
  next _ => rw [dictGet_dictSet_self]; rfl
  next hcond =>
    have : dictContains c "season" = true := by
      by_contra hc
      simp only [Bool.not_eq_true] at hc
      exact hcond (by simp [hc])
    rw [dictContains_eq_isSome] at this
    exact this

/-- The season step touches no other key. -/
theorem fixSeason_ne (c : PyDict) (k : String) (h : k ≠ "season") :
    dictGet (fixSeason c) k = dictGet c k := by
  unfold fixSeason
  split
  · exact dictGet_dictSet_ne _ _ _ _ h
  · rfl

/-- Anatomy of a successful `normalize_params` run: the items are `[]` for a
falsy argument or the dict's own bindings, both team-alias steps succeeded,
and the result is the season step applied to their output. -/
theorem normalize_params_ok_elim {params : PyVal} {d : PyDict}
    (h : normalize_params params = .ok d) :
    ∃ (items : PyDict) (c' c'' : PyDict),
      ((pyTruthy params = false ∧ items = []) ∨ params = .dict items)
      ∧ mapTeamKey (mapPosition (coerceGw (coerceLimit (aliasKeys items)))) "team" = .ok c'
      ∧ mapTeamKey c' "opponent" = .ok c''
      ∧ d = fixSeason c'' := by
  unfold normalize_params at h
  cases hE : itemsOf params with
  | error e => rw [hE] at h; exact Except.noConfusion h
  | ok items =>
    rw [hE] at h
    have hitems : (pyTruthy params = false ∧ items = []) ∨ params = .dict items := by
      unfold itemsOf at hE
      cases ht : pyTruthy params with
      | false =>
        rw [ht] at hE
        simp only [Bool.not_false, if_true, Except.ok.injEq] at hE
        exact Or.inl ⟨rfl, hE.symm⟩
      | true =>
        rw [ht] at hE
        simp only [Bool.not_true, Bool.false_eq_true, if_false] at hE
        cases params <;> first
          | exact Except.noConfusion hE
          | exact Or.inr (congrArg PyVal.dict (Except.ok.inj hE))
    have h' : (match mapTeamKey (mapPosition (coerceGw (coerceLimit (aliasKeys items)))) "team" with
        | Except.error e => (Except.error e : Except String PyDict)
        | Except.ok c =>
          match mapTeamKey c "opponent" with
          | Except.error e => Except.error e
          | Except.ok c => Except.ok (fixSeason c)) = Except.ok d := h
    cases h1 : mapTeamKey (mapPosition (coerceGw (coerceLimit (aliasKeys items)))) "team" with
    | error e => rw [h1] at h'; exact Except.noConfusion h'
    | ok c' =>
      rw [h1] at h'
      have h'' : (match mapTeamKey c' "opponent" with
          | Except.error e => (Except.error e : Except String PyDict)
          | Except.ok c => Except.ok (fixSeason c)) = Except.ok d := h'
      cases h2 : mapTeamKey c' "opponent" with
      | error e => rw [h2] at h''; exact Except.noConfusion h''
      | ok c'' =>
        rw [h2] at h''
        exact ⟨items, c', c'', hitems, h1, h2, (Except.ok.inj h'').symm⟩

/-! ## Sorting lemmas for the re-ranker -/

/-- Inserting into the stable descending sort permutes a cons. -/
theorem perm_insertDescBy {α : Type} (f : α → ℚ) (x : α) (l : List α) :
    (insertDescBy f x l).Perm (x :: l) := by
  induction l with
  | nil => exact List.Perm.refl _
  | cons y ys ih =>
    by_cases hc : f y ≤ f x
    · simp only [insertDescBy, if_pos hc]
      exact List.Perm.refl _
    · simp only [insertDescBy, if_neg hc]
      exact (ih.cons y).trans (List.Perm.swap x y ys)

/-- The stable descending sort permutes its input. -/
theorem sortDescBy_perm {α : Type} (f : α → ℚ) (l : List α) :
    (sortDescBy f l).Perm l := by
  induction l with
  | nil => exact List.Perm.refl _
  | cons x xs ih =>
    exact (perm_insertDescBy f x (sortDescBy f xs)).trans (ih.cons x)

/-- Insertion preserves the descending order of scores. -/
theorem pairwise_insertDescBy {α : Type} (f : α → ℚ) (x : α) (l : List α)
    (h : l.Pairwise (fun a b => f b ≤ f a)) :
    (insertDescBy f x l).Pairwise (fun a b => f b ≤ f a) := by
  induction l with
  | nil => simp [insertDescBy]
  | cons y ys ih =>
    rw [List.pairwise_cons] at h
    obtain ⟨hy, hys⟩ := h
    by_cases hc : f y ≤ f x
    · simp only [insertDescBy, if_pos hc]
      refine List.Pairwise.cons ?_ (List.Pairwise.cons hy hys)
      intro z hz
      rcases List.mem_cons.mp hz with rfl | hz'
      · exact hc
      · exact le_trans (hy z hz') hc
    · simp only [insertDescBy, if_neg hc]
      refine List.Pairwise.cons ?_ (ih hys)
      intro z hz
      have hz' := (perm_insertDescBy f x ys).mem_iff.mp hz
      rcases List.mem_cons.mp hz' with rfl | hz''
      · exact le_of_lt (lt_of_not_le hc)
      · exact hy z hz''

/-- The stable descending sort leaves scores in descending order. -/
theorem sortDescBy_pairwise {α : Type} (f : α → ℚ) (l : List α) :
    (sortDescBy f l).Pairwise (fun a b => f b ≤ f a) := by
  induction l with
  | nil => simp [sortDescBy]
  | cons x xs ih => exact pairwise_insertDescBy f x _ ih

/-! ## The claims -/

/-- C10: for every question string and every list of retrieved documents,
`rerank_by_player_name` returns a permutation of its input — the same
documents, unmodified, with only the order possibly changed. -/
theorem rerank_by_player_name_perm (question : String) (docs : List SemDoc) :
    (rerank_by_player_name question docs).Perm docs :=
  sortDescBy_perm _ _

/-- C7 counterexample: the re-ranking pass is not the claimed
substring-partition move-to-front.  With the question `"hello"` and chunks
named `"zzzz"` and `"hello world"`, neither name (nor its last token,
`"zzzz"`/`"world"`) occurs in the question, so the claimed pass keeps the
input order; the code's similarity sort nevertheless swaps the chunks
(ratio 5/8 against 0). -/
theorem rerank_not_partition_cex :
    rerank_by_player_name "hello"
        [⟨"d1", [("player_name", "zzzz")]⟩, ⟨"d2", [("player_name", "hello world")]⟩]
      = [⟨"d2", [("player_name", "hello world")]⟩, ⟨"d1", [("player_name", "zzzz")]⟩]
    ∧ specRerank "hello"
        [⟨"d1", [("player_name", "zzzz")]⟩, ⟨"d2", [("player_name", "hello world")]⟩]
      = [⟨"d1", [("player_name", "zzzz")]⟩, ⟨"d2", [("player_name", "hello world")]⟩]
    ∧ (⟨"d1", [("player_name", "zzzz")]⟩ : SemDoc) ≠ ⟨"d2", [("player_name", "hello world")]⟩ := by
  refine ⟨by decide, by decide, by decide⟩

/-- C7 (amended): the re-ranking pass stably sorts the chunks by descending
`difflib` similarity ratio between the lower-cased question and the chunk's
`player_name` (an absent or empty name scoring 0); it is not a substring
partition.  On the spec's own example — chunks named `"Bukayo Saka"` and
`"Erling Haaland"`, question `"how did haaland do"` — the Haaland chunk
(ratio 9/16 against 8/29) is ordered first. -/
theorem rerank_similarity_sort :
    (∀ (q : String) (docs : List SemDoc),
        (rerank_by_player_name q docs).Pairwise
          (fun x y => docScore q y ≤ docScore q x))
    ∧ rerank_by_player_name "how did haaland do"
        [⟨"Saka profile", [("player_name", "Bukayo Saka")]⟩,
         ⟨"Haaland profile", [("player_name", "Erling Haaland")]⟩]
      = [⟨"Haaland profile", [("player_name", "Erling Haaland")]⟩,
         ⟨"Saka profile", [("player_name", "Bukayo Saka")]⟩] := by
  refine ⟨fun q docs => sortDescBy_pairwise _ _, by decide⟩

/-- C6 counterexample: `format_context` does not group by entity key.  Three
records keyed `haaland`, `bukayo saka`, `haaland` and one chunk keyed
`erling haaland` render strictly in input order, records first: the two
`haaland` stat lines are separated by the `bukayo saka` line, and the chunk
line stands apart behind the semantic-search header, so the rendering-order
key sequence is not grouped and no single entity group holds the records
and the chunk the claim would merge. -/
theorem format_context_not_grouped_cex :
    specRecordKey [("Player", .str "Haaland"), ("Goals", .int 2)] = "haaland"
    ∧ specRecordKey [("player_name", .str "Haaland"), ("Assists", .int 3)] = "haaland"
    ∧ specRecordKey [("Player", .str "Bukayo Saka"), ("Goals", .int 1)] = "bukayo saka"
    ∧ specChunkKey [("text", .str "Haaland is a striker."),
        ("metadata", .dict [("player_name", .str "Erling Haaland")])] = "erling haaland"
    ∧ format_context_parts
        [[("Player", .str "Haaland"), ("Goals", .int 2)],
         [("Player", .str "Bukayo Saka"), ("Goals", .int 1)],
         [("player_name", .str "Haaland"), ("Assists", .int 3)]]
        [[("text", .str "Haaland is a striker."),
          ("metadata", .dict [("player_name", .str "Erling Haaland")])]]
      = ["### Database Records (High Confidence):",
         "- Player: Haaland, Goals: 2",
         "- Player: Bukayo Saka, Goals: 1",
         "- player_name: Haaland, Assists: 3",
         "\n",
         "### Semantic Search (Contextual):",
         "- Haaland is a striker."]
    ∧ keysGroupedB ["haaland", "bukayo saka", "haaland", "erling haaland"] = false := by
  exact ⟨by decide, by decide, by decide, by decide, by decide, by decide⟩

/-- C6 (amended): the Context Merger performs no entity grouping.  For every
input it renders a flat two-section block: all structured records, in input
order, as `"- field: value, …"` lines under a database-records header (a
no-match header when there are none), a separator, then every chunk's text,
in input order, under a semantic-search header (a no-profiles header when
there are none); entity keys play no part.  The record lines embed in the
parts in input order (`Sublist`), and the block is their newline join. -/
theorem format_context_flat (rs : List StructuredRecord) (cs : List SemChunk) :
    format_context_parts rs cs =
      (if rs.isEmpty then ["### Database Records: No direct match found."]
       else "### Database Records (High Confidence):"
         :: rs.map (fun r => "- " ++ recordStr r))
      ++ ["\n"]
      ++ (if cs.isEmpty then ["### Semantic Search: No relevant profiles found."]
          else "### Semantic Search (Contextual):" :: cs.map chunkLine)
    ∧ (rs.map (fun r => "- " ++ recordStr r)).Sublist (format_context_parts rs cs)
    ∧ format_context rs cs = String.intercalate "\n" (format_context_parts rs cs) := by
  refine ⟨?_, ?_, rfl⟩
  · cases rs <;> cases cs <;> simp [format_context_parts]
  · cases rs with
    | nil => exact List.nil_sublist _
    | cons r rs' =>
      have h : format_context_parts (r :: rs') cs =
          "### Database Records (High Confidence):"
            :: (((r :: rs').map (fun r => "- " ++ recordStr r))
              ++ (["\n"]
                ++ (if cs.isEmpty then ["### Semantic Search: No relevant profiles found."]
                    else "### Semantic Search (Contextual):" :: cs.map chunkLine))) := by
        cases cs <;> simp [format_context_parts]
      rw [h]
      exact (List.sublist_append_left _ _).cons _

/-- C2 counterexample: normalization is not total over the canonical key
set.  The empty raw mapping normalizes to a dict holding only `limit`,
`position`, `position_mapped` and `season` — `player_name`, `player_names`,
`team`, `opponent` and `gw` are all absent. -/
theorem normalize_params_empty_missing_keys_cex :
    normalize_params (.dict [])
      = .ok [("limit", .int 5), ("position", .str "MID"),
             ("position_mapped", .str "MID"), ("season", .str "2022-23")]
    ∧ dictContains [("limit", PyVal.int 5), ("position", PyVal.str "MID"),
        ("position_mapped", PyVal.str "MID"), ("season", PyVal.str "2022-23")] "player_name" = false
    ∧ dictContains [("limit", PyVal.int 5), ("position", PyVal.str "MID"),
        ("position_mapped", PyVal.str "MID"), ("season", PyVal.str "2022-23")] "player_names" = false
    ∧ dictContains [("limit", PyVal.int 5), ("position", PyVal.str "MID"),
        ("position_mapped", PyVal.str "MID"), ("season", PyVal.str "2022-23")] "team" = false
    ∧ dictContains [("limit", PyVal.int 5), ("position", PyVal.str "MID"),
        ("position_mapped", PyVal.str "MID"), ("season", PyVal.str "2022-23")] "opponent" = false
    ∧ dictContains [("limit", PyVal.int 5), ("position", PyVal.str "MID"),
        ("position_mapped", PyVal.str "MID"), ("season", PyVal.str "2022-23")] "gw" = false :=
  ⟨rfl, rfl, rfl, rfl, rfl, rfl⟩

/-- C2 (amended): every successful normalization guarantees only the four
keys `limit`, `position`, `position_mapped` and `season` (with `limit`
always bound to an integer); the remaining canonical keys are present only
when the raw mapping supplied them (possibly under an alias). -/
theorem normalize_params_guaranteed_keys (params : PyVal) (d : PyDict)
    (h : normalize_params params = .ok d) :
    dictContains d "limit" = true
    ∧ dictContains d "position" = true
    ∧ dictContains d "position_mapped" = true
    ∧ dictContains d "season" = true
    ∧ ∃ n : Int, dictGet d "limit" = Option.some (.int n) := by
  obtain ⟨items, c', c'', _, h1, h2, rfl⟩ := normalize_params_ok_elim h
  obtain ⟨n, hn⟩ := coerceLimit_limit (aliasKeys items)
  have hl : dictGet (fixSeason c'') "limit" = Option.some (.int n) := by
    rw [fixSeason_ne _ _ (by decide), mapTeamKey_ne c' c'' _ _ (by decide) h2,
      mapTeamKey_ne _ c' _ _ (by decide) h1, mapPosition_ne _ _ (by decide) (by decide),
      coerceGw_ne _ _ (by decide)]
    exact hn
  obtain ⟨hp, hpm⟩ := mapPosition_contains (coerceGw (coerceLimit (aliasKeys items)))
  have hp' : (dictGet (fixSeason c'') "position").isSome = true := by
    rw [fixSeason_ne _ _ (by decide), mapTeamKey_ne c' c'' _ _ (by decide) h2,
      mapTeamKey_ne _ c' _ _ (by decide) h1]
    exact hp
  have hpm' : (dictGet (fixSeason c'') "position_mapped").isSome = true := by
    rw [fixSeason_ne _ _ (by decide), mapTeamKey_ne c' c'' _ _ (by decide) h2,
      mapTeamKey_ne _ c' _ _ (by decide) h1]
    exact hpm
  refine ⟨?_, ?_, ?_, ?_, n, hl⟩
  · rw [dictContains_eq_isSome, hl]; rfl
  · rw [dictContains_eq_isSome]; exact hp'
  · rw [dictContains_eq_isSome]; exact hpm'
  · rw [dictContains_eq_isSome]; exact fixSeason_season c''

/-- C2 witness: the guarantee instantiated at the empty mapping. -/
theorem normalize_params_guaranteed_keys_witness :
    dictContains [("limit", PyVal.int 5), ("position", PyVal.str "MID"),
        ("position_mapped", PyVal.str "MID"), ("season", PyVal.str "2022-23")] "limit" = true
    ∧ dictContains [("limit", PyVal.int 5), ("position", PyVal.str "MID"),
        ("position_mapped", PyVal.str "MID"), ("season", PyVal.str "2022-23")] "position" = true
    ∧ dictContains [("limit", PyVal.int 5), ("position", PyVal.str "MID"),
        ("position_mapped", PyVal.str "MID"), ("season", PyVal.str "2022-23")] "position_mapped" = true
    ∧ dictContains [("limit", PyVal.int 5), ("position", PyVal.str "MID"),
        ("position_mapped", PyVal.str "MID"), ("season", PyVal.str "2022-23")] "season" = true
    ∧ ∃ n : Int, dictGet [("limit", PyVal.int 5), ("position", PyVal.str "MID"),
        ("position_mapped", PyVal.str "MID"), ("season", PyVal.str "2022-23")] "limit"
          = Option.some (.int n) :=
  normalize_params_guaranteed_keys (.dict []) _ rfl

/-- C8 counterexample: with `position = "striker"` the normalizer leaves
`position` as `"striker"` while writing `"FWD"` into `position_mapped` — the
two keys do not receive the same canonicalized code; and the unmapped
position `"winger"` becomes `"MID"` in `position_mapped`, not the preserved
raw text. -/
theorem position_mapping_cex :
    normalize_params (.dict [("position", .str "striker")])
      = .ok [("position", .str "striker"), ("limit", .int 5),
             ("position_mapped", .str "FWD"), ("season", .str "2022-23")]
    ∧ ("striker" : String) ≠ "FWD"
    ∧ normalize_params (.dict [("position", .str "winger")])
      = .ok [("position", .str "winger"), ("limit", .int 5),
             ("position_mapped", .str "MID"), ("season", .str "2022-23")]
    ∧ ("MID" : String) ≠ "winger" :=
  ⟨rfl, by decide, rfl, by decide⟩

/-- C8 (amended): when a position is supplied, only `position_mapped`
receives the synonym table's code for `str(value).lower()` — with the
default code `"MID"` (not the raw text) when the value is unmapped — while
`position` keeps its raw value; both default to `"MID"` only when the
position is absent. -/
theorem position_mapping_behavior (l : PyDict) (v : PyVal) (d : PyDict)
    (hv : dictGet (aliasKeys l) "position" = Option.some v)
    (h : normalize_params (.dict l) = .ok d) :
    dictGet d "position" = Option.some v
    ∧ dictGet d "position_mapped"
        = Option.some (.str (alistGetD POS_MAP (pyLower (pyStrOf v)) "MID")) := by
  obtain ⟨items, c', c'', hitems, h1, h2, rfl⟩ := normalize_params_ok_elim h
  have hil : items = l := by
    rcases hitems with ⟨hf, rfl⟩ | heq
    · cases l with
      | nil => rfl
      | cons a l => simp [pyTruthy] at hf
    · exact (PyVal.dict.inj heq).symm
  subst hil
  have h0 : dictGet (coerceGw (coerceLimit (aliasKeys items))) "position" = Option.some v := by
    rw [coerceGw_ne _ _ (by decide), coerceLimit_ne _ _ (by decide)]
    exact hv
  obtain ⟨hpos, hmap⟩ := mapPosition_sets _ v h0
  constructor
  · rw [fixSeason_ne _ _ (by decide), mapTeamKey_ne c' c'' _ _ (by decide) h2,
      mapTeamKey_ne _ c' _ _ (by decide) h1]
    exact hpos
  · rw [fixSeason_ne _ _ (by decide), mapTeamKey_ne c' c'' _ _ (by decide) h2,
      mapTeamKey_ne _ c' _ _ (by decide) h1]
    exact hmap

/-- C8 witness: the behavior instantiated at `position = "striker"`. -/
theorem position_mapping_behavior_witness :
    dictGet [("position", PyVal.str "striker"), ("limit", PyVal.int 5),
        ("position_mapped", PyVal.str "FWD"), ("season", PyVal.str "2022-23")] "position"
      = Option.some (.str "striker")
    ∧ dictGet [("position", PyVal.str "striker"), ("limit", PyVal.int 5),
        ("position_mapped", PyVal.str "FWD"), ("season", PyVal.str "2022-23")] "position_mapped"
      = Option.some (.str (alistGetD POS_MAP (pyLower (pyStrOf (PyVal.str "striker"))) "MID")) :=
  position_mapping_behavior [("position", PyVal.str "striker")] (PyVal.str "striker") _ rfl rfl

/-- C9 counterexample: normalization can raise.  A non-string value under
`team` reaches `.lower()` and the `AttributeError` propagates — the Python
function does not return. -/
theorem normalize_params_raises_cex :
    normalize_params (.dict [("team", .int 5)])
      = .error "AttributeError: object has no attribute lower" := rfl

/-- C9 (amended): `normalize_params` returns normally — whatever the values
bound to all other keys — provided the argument, when truthy, is a mapping
whose `team`/`opponent` values (after key aliasing) are strings when
present; only a truthy non-mapping argument or a non-string under
`team`/`opponent` raises.  (The function is pure by construction.) -/
theorem normalize_params_no_raise (params : PyVal)
    (h : pyTruthy params = false
      ∨ ∃ l, params = .dict l
          ∧ (∀ v, dictGet (aliasKeys l) "team" = Option.some v → ∃ s, v = .str s)
          ∧ (∀ v, dictGet (aliasKeys l) "opponent" = Option.some v → ∃ s, v = .str s)) :
    ∃ d, normalize_params params = .ok d := by
  have main : ∀ l : PyDict,
      (∀ v, dictGet (aliasKeys l) "team" = Option.some v → ∃ s, v = .str s) →
      (∀ v, dictGet (aliasKeys l) "opponent" = Option.some v → ∃ s, v = .str s) →
      itemsOf params = .ok l → ∃ d, normalize_params params = .ok d := by
    intro l ht ho hE
    have hteam : ∀ v,
        dictGet (mapPosition (coerceGw (coerceLimit (aliasKeys l)))) "team" = Option.some v →
        ∃ s, v = .str s := by
      intro v hv
      rw [mapPosition_ne _ _ (by decide) (by decide), coerceGw_ne _ _ (by decide),
        coerceLimit_ne _ _ (by decide)] at hv
      exact ht v hv
    obtain ⟨c', hc'⟩ := mapTeamKey_ok_of _ "team" hteam
    have hopp : ∀ v, dictGet c' "opponent" = Option.some v → ∃ s, v = .str s := by
      intro v hv
      rw [mapTeamKey_ne _ c' _ _ (by decide) hc', mapPosition_ne _ _ (by decide) (by decide),
        coerceGw_ne _ _ (by decide), coerceLimit_ne _ _ (by decide)] at hv
      exact ho v hv
    obtain ⟨c'', hc''⟩ := mapTeamKey_ok_of c' "opponent" hopp
    refine ⟨fixSeason c'', ?_⟩
    unfold normalize_params
    rw [hE]
    show (match mapTeamKey (mapPosition (coerceGw (coerceLimit (aliasKeys l)))) "team" with
      | Except.error e => (Except.error e : Except String PyDict)
      | Except.ok c =>
        match mapTeamKey c "opponent" with
        | Except.error e => Except.error e
        | Except.ok c => Except.ok (fixSeason c)) = Except.ok (fixSeason c'')
    rw [hc']
    show (match mapTeamKey c' "opponent" with
      | Except.error e => (Except.error e : Except String PyDict)
      | Except.ok c => Except.ok (fixSeason c)) = Except.ok (fixSeason c'')
    rw [hc'']
  rcases h with hf | ⟨l, rfl, ht, ho⟩
  · refine main [] (by intro v hv; exact absurd hv (by simp [aliasKeys, dictGet]))
      (by intro v hv; exact absurd hv (by simp [aliasKeys, dictGet])) ?_
    unfold itemsOf
    rw [hf]
    rfl
  · by_cases htr : pyTruthy (.dict l) = true
    · refine main l ht ho ?_
      unfold itemsOf
      rw [htr]
      rfl
    · have hl : l = [] := by
        cases l with
        | nil => rfl
        | cons a l => simp [pyTruthy] at htr
      subst hl
      refine main [] ht ho ?_
      unfold itemsOf
      simp only [Bool.not_eq_true] at htr
      rw [htr]
      rfl

/-- C9 witness: a mapping with string team values and arbitrary values
elsewhere normalizes without raising. -/
theorem normalize_params_no_raise_witness :
    ∃ d, normalize_params (.dict [("team", .str "Manchester City"),
        ("gw", .list []), ("limit", PyVal.none)]) = .ok d :=
  normalize_params_no_raise _ (Or.inr ⟨_, rfl,
    fun _v hv => ⟨"Manchester City", (Option.some.inj hv).symm⟩,
    fun _v hv => Option.noConfusion hv⟩)

/-- C3 counterexample: an intent absent from the registry is not replaced by
the `"error"` sentinel — the parsed classification passes through
unchanged. -/
theorem parse_user_intent_offmenu_cex :
    parse_user_intent "\x7b\"intent\": \"weather_forecast\", \"parameters\": \x7b\x7d\x7d"
      = .dict [("intent", .str "weather_forecast"), ("parameters", .dict [])]
    ∧ templateGet "weather_forecast" = Option.none
    ∧ dictGet [("intent", PyVal.str "weather_forecast"), ("parameters", PyVal.dict [])] "intent"
        = Option.some (.str "weather_forecast")
    ∧ ("weather_forecast" : String) ≠ "error" :=
  ⟨rfl, rfl, rfl, by decide⟩

/-- C3 (amended): the Intent Classifier's recovery strips code fences and
trailing commas and degrades any parse failure to the sentinel
`\x7b"intent": "error", "parameters": \x7b\x7d\x7d` without raising; but a
successfully parsed value is returned as-is even when its intent is off the
registry (registry filtering happens only downstream, in `execute_query`). -/
theorem parse_user_intent_recovery :
    (∀ s, json_loads (clean_json_string s) = Option.none → parse_user_intent s = errorIntent)
    ∧ (∀ s v, json_loads (clean_json_string s) = Option.some v → parse_user_intent s = v)
    ∧ clean_json_string
        "```json\n\x7b\"intent\": \"player_summary\", \"parameters\": \x7b\"player_name\": \"Haaland\",\x7d,\x7d\n```"
      = "\x7b\"intent\": \"player_summary\", \"parameters\": \x7b\"player_name\": \"Haaland\"\x7d\x7d"
    ∧ parse_user_intent
        "```json\n\x7b\"intent\": \"player_summary\", \"parameters\": \x7b\"player_name\": \"Haaland\",\x7d,\x7d\n```"
      = .dict [("intent", .str "player_summary"),
               ("parameters", .dict [("player_name", .str "Haaland")])] := by
  refine ⟨?_, ?_, by decide, rfl⟩
  · intro s h
    unfold parse_user_intent
    rw [h]
  · intro s v h
    unfold parse_user_intent
    rw [h]

/-- C3 witness: the recovery applied to an unparseable and to a parseable
output. -/
theorem parse_user_intent_recovery_witness :
    parse_user_intent "not json" = errorIntent
    ∧ parse_user_intent "\x7b\"intent\": \"compare_players\"\x7d"
        = .dict [("intent", .str "compare_players")] :=
  ⟨parse_user_intent_recovery.1 "not json" rfl,
   parse_user_intent_recovery.2.1 _ _ rfl⟩

/-- C4 counterexample: for an intent that is not a registry key,
`execute_query` returns an error string, not an empty result list. -/
theorem execute_query_unknown_intent_cex :
    execute_query (fun _ _ => .ok []) (.dict [("intent", .str "weather")])
      = .ok (.str "Error: Intent 'weather' is not in the template library.")
    ∧ ∀ l : List PyVal,
        PyVal.str "Error: Intent 'weather' is not in the template library." ≠ .list l :=
  ⟨rfl, fun _ h => PyVal.noConfusion h⟩

/-- C4 (amended): for every nonempty string intent whose stripped,
lower-cased form is not a registry key (and whose parameters normalize
without raising), `execute_query` returns — without raising and without
touching the store — the string
`Error: Intent '…' is not in the template library.`. -/
theorem execute_query_unknown_intent_error
    (db : String → PyDict → Except String (List StructuredRecord))
    (d : PyDict) (s : String) (params : PyDict)
    (hi : dictGet d "intent" = Option.some (.str s))
    (hs : s ≠ "")
    (ht : templateGet (pyLower (pyStrip s)) = Option.none)
    (hn : normalize_params (dictGetD d "parameters" .none) = .ok params) :
    execute_query db (.dict d)
      = .ok (.str ("Error: Intent '" ++ pyLower (pyStrip s)
          ++ "' is not in the template library.")) := by
  have h0 : dictGetD d "intent" .none = .str s := by
    unfold dictGetD
    rw [hi]
    rfl
  have hs' : (s != "") = true := bne_iff_ne.mpr hs
  simp only [execute_query, h0, pyTruthy, hs', if_true, hn, ht, pyStrOf]

/-- C4 witness: the error string at the concrete off-registry intent
`"weather"`. -/
theorem execute_query_unknown_intent_error_witness :
    execute_query (fun _ _ => Except.ok [])
        (.dict [("intent", PyVal.str "weather"), ("parameters", PyVal.dict [])])
      = .ok (.str ("Error: Intent '" ++ pyLower (pyStrip "weather")
          ++ "' is not in the template library.")) :=
  execute_query_unknown_intent_error _ _ "weather"
    [("limit", PyVal.int 5), ("position", PyVal.str "MID"),
     ("position_mapped", PyVal.str "MID"), ("season", PyVal.str "2022-23")]
    rfl (by decide) rfl rfl

/-- C5 counterexample: no Python-side truncation exists.  With `limit = 5`,
a `player_vs_team` query whose store yields 12 rows renders all 12 rows
into the returned string, which differs from the first-5-rows rendering the
claim demands. -/
theorem execute_query_no_truncation_cex :
    execute_query (fun _ _ => .ok twelveRows)
        (.dict [("intent", .str "player_vs_team"),
                ("parameters", .dict [("player_name", .str "Haaland"),
                                      ("opponent", .str "Spurs"),
                                      ("limit", .int 5)])])
      = .ok (.str (String.intercalate "\n" (twelveRows.map (fun r => jsonDumps (.dict r)))))
    ∧ twelveRows.length = 12
    ∧ String.intercalate "\n" (twelveRows.map (fun r => jsonDumps (.dict r)))
        ≠ String.intercalate "\n" ((twelveRows.take 5).map (fun r => jsonDumps (.dict r))) :=
  ⟨rfl, rfl, by decide⟩

/-- C5 (amended): `execute_query` renders every row the store returns,
independently of `limit` — row limiting lives only inside the Cypher
template strings (`LIMIT toInteger($limit)`), which the `player_vs_team`
template does not contain (unlike, e.g., `top_players_by_position`). -/
theorem execute_query_returns_all_rows :
    (∀ (db : String → PyDict → Except String (List StructuredRecord))
        (d : PyDict) (s tmpl : String) (params : PyDict) (recs : List StructuredRecord),
      dictGet d "intent" = Option.some (.str s) → s ≠ "" →
      templateGet (pyLower (pyStrip s)) = Option.some tmpl →
      normalize_params (dictGetD d "parameters" .none) = .ok params →
      db tmpl params = .ok recs → recs ≠ [] →
      execute_query db (.dict d)
        = .ok (.str (String.intercalate "\n" (recs.map (fun r => jsonDumps (.dict r))))))
    ∧ containsSub ((templateGet "player_vs_team").getD "") "LIMIT" = false
    ∧ containsSub ((templateGet "top_players_by_position").getD "") "LIMIT" = true := by
  refine ⟨?_, by decide, by decide⟩
  intro db d s tmpl params recs hi hs ht hn hdb hne
  have h0 : dictGetD d "intent" .none = .str s := by
    unfold dictGetD
    rw [hi]
    rfl
  have hs' : (s != "") = true := bne_iff_ne.mpr hs
  cases recs with
  | nil => exact absurd rfl hne
  | cons r rs =>
    simp only [execute_query, h0, pyTruthy, hs', if_true, hn, ht, hdb]

/-- C5 witness: the all-rows rendering at the 12-row `player_vs_team`
input. -/
theorem execute_query_returns_all_rows_witness :
    execute_query (fun _ _ => Except.ok twelveRows)
        (.dict [("intent", PyVal.str "player_vs_team"),
                ("parameters", PyVal.dict [("player_name", PyVal.str "Haaland"),
                                           ("opponent", PyVal.str "Spurs"),
                                           ("limit", PyVal.int 5)])])
      = .ok (.str (String.intercalate "\n" (twelveRows.map (fun r => jsonDumps (.dict r))))) :=
  execute_query_returns_all_rows.1 _ _ "player_vs_team" _
    [("player_name", PyVal.str "Haaland"), ("opponent", PyVal.str "Spurs"),
     ("limit", PyVal.int 5), ("position", PyVal.str "MID"),
     ("position_mapped", PyVal.str "MID"), ("season", PyVal.str "2022-23")]
    twelveRows rfl (by decide) rfl rfl rfl
    (by
      intro h
      have h0 : twelveRows.length = 0 := by rw [h]; rfl
      exact absurd h0 (by decide))

/-- C1: the orchestrator's trace contract is violated on both
model-resolution failure paths.  With the optional Google provider library
unavailable, `process_query` with `llm_key = "gemini"` returns a mapping
holding only `answer`, `logs` and `context_used` — `duration` and
`model_used` are absent, contradicting the function's own docstring — and
with the unknown key `"bogus"` the `ValueError` from `get_llm_instance`
propagates instead of an error answer; the ordinary `"gemma"` path shows
the full five-key trace the contract expects. -/
theorem process_query_trace_contract_violations :
    process_query "\x7b\"intent\": \"error\"\x7d" (fun _ _ => Except.ok [])
        (fun _ _ => Except.ok []) (fun _ _ => Except.ok "ok") (.float 3) false
        "who is best?" "gemini" "minilm" true true
      = .ok [("answer", .str "Error: Could not initialize LLM. Check API keys or Model Name."),
             ("logs", .dict [("intent", .str "error"), ("cypher_params", PyVal.none),
                             ("retrieved_cypher", .list []), ("retrieved_vector", .list [])]),
             ("context_used", .str "### Database Records: No direct match found.\n\n\n### Semantic Search: No relevant profiles found.")]
    ∧ dictContains [("answer", PyVal.str "Error: Could not initialize LLM. Check API keys or Model Name."),
        ("logs", PyVal.dict [("intent", PyVal.str "error"), ("cypher_params", PyVal.none),
                             ("retrieved_cypher", PyVal.list []), ("retrieved_vector", PyVal.list [])]),
        ("context_used", PyVal.str "### Database Records: No direct match found.\n\n\n### Semantic Search: No relevant profiles found.")]
        "duration" = false
    ∧ dictContains [("answer", PyVal.str "Error: Could not initialize LLM. Check API keys or Model Name."),
        ("logs", PyVal.dict [("intent", PyVal.str "error"), ("cypher_params", PyVal.none),
                             ("retrieved_cypher", PyVal.list []), ("retrieved_vector", PyVal.list [])]),
        ("context_used", PyVal.str "### Database Records: No direct match found.\n\n\n### Semantic Search: No relevant profiles found.")]
        "model_used" = false
    ∧ process_query "\x7b\"intent\": \"error\"\x7d" (fun _ _ => Except.ok [])
        (fun _ _ => Except.ok []) (fun _ _ => Except.ok "ok") (.float 3) false
        "who is best?" "bogus" "minilm" true true
      = .error "Unknown LLM key: bogus"
    ∧ process_query "\x7b\"intent\": \"error\"\x7d" (fun _ _ => Except.ok [])
        (fun _ _ => Except.ok []) (fun _ _ => Except.ok "ok") (.float 3) false
        "who is best?" "gemma" "minilm" true true
      = .ok [("answer", .str "ok"),
             ("context_used", .str "### Database Records: No direct match found.\n\n\n### Semantic Search: No relevant profiles found."),
             ("logs", .dict [("intent", .str "error"), ("cypher_params", PyVal.none),
                             ("retrieved_cypher", .list []), ("retrieved_vector", .list [])]),
             ("duration", .float 3),
             ("model_used", .str "gemma")] :=
  ⟨rfl, rfl, rfl, rfl, rfl⟩

end FPL
